import Mathlib

/-!
Verification of the mac-pedals audio effects processor.

The distortion engine (src/distortion.rs) and the control/render paths
(src/main.rs) are shallowly embedded here. The f64 values of the source
are modelled as real numbers, so all arithmetic is exact; stateful Rust
methods taking mutable self become functions returning the output paired
with the updated state.
-/

namespace MacPedals

open Real

noncomputable section

/-- The five waveshaping algorithms (enum DistortionType in distortion.rs). -/
inductive DistortionType where
  | Soft
  | Hard
  | BitCrusher
  | Wavefolder
  | Overdrive

/-- Rust f64::clamp: lo if x < lo, hi if x > hi, otherwise x. -/
def fclamp (x lo hi : ℝ) : ℝ :=
  if x < lo then lo else if x > hi then hi else x

/-- Rust f64::round: round to nearest integer, ties away from zero. -/
def fround (x : ℝ) : ℝ :=
  if x < 0 then -((round (-x) : ℤ) : ℝ) else ((round x : ℤ) : ℝ)

/-- The Distortion struct of distortion.rs. The two-element history arrays
dc_blocker and tone_filter are modelled as pairs of fields. -/
structure Distortion where
  distortion_type : DistortionType
  drive : ℝ
  level : ℝ
  tone : ℝ
  sample_rate : ℝ
  dc_blocker_0 : ℝ
  dc_blocker_1 : ℝ
  tone_filter_0 : ℝ
  tone_filter_1 : ℝ
  bit_crusher_counter : ℝ
  bit_crusher_rate : ℝ
  bit_crusher_depth : ℝ
  last_sample : ℝ

namespace Distortion

/-- Distortion::new(sample_rate). -/
def new (sample_rate : ℕ) : Distortion :=
  { distortion_type := .Soft
    drive := 0.5
    level := 0.7
    tone := 0.5
    sample_rate := (sample_rate : ℝ)
    dc_blocker_0 := 0.0
    dc_blocker_1 := 0.0
    tone_filter_0 := 0.0
    tone_filter_1 := 0.0
    bit_crusher_counter := 0.0
    bit_crusher_rate := 0.1
    bit_crusher_depth := 0.5
    last_sample := 0.0 }

/-- Distortion::set_distortion_type. -/
def set_distortion_type (s : Distortion) (distortion_type : DistortionType) : Distortion :=
  { s with distortion_type := distortion_type }

/-- Distortion::set_drive: stores drive.clamp(0.0, 1.0). -/
def set_drive (s : Distortion) (drive : ℝ) : Distortion :=
  { s with drive := fclamp drive 0.0 1.0 }

/-- Distortion::set_level: stores level.clamp(0.0, 1.0). -/
def set_level (s : Distortion) (level : ℝ) : Distortion :=
  { s with level := fclamp level 0.0 1.0 }

/-- Distortion::set_tone: stores tone.clamp(0.0, 1.0). -/
def set_tone (s : Distortion) (tone : ℝ) : Distortion :=
  { s with tone := fclamp tone 0.0 1.0 }

/-- Distortion::set_bit_crusher_params: rate.clamp(0.01, 1.0), depth.clamp(0.1, 1.0). -/
def set_bit_crusher_params (s : Distortion) (rate depth : ℝ) : Distortion :=
  { s with bit_crusher_rate := fclamp rate 0.01 1.0
           bit_crusher_depth := fclamp depth 0.1 1.0 }

/-- Distortion::calculate_drive_gain: 1.0 + drive * 19.0. -/
def calculate_drive_gain (s : Distortion) : ℝ :=
  1.0 + s.drive * 19.0

/-- Distortion::soft_clip: input.tanh(). -/
def soft_clip (_s : Distortion) (input : ℝ) : ℝ :=
  Real.tanh input

/-- Distortion::hard_clip: clamp to the drive-dependent threshold. -/
def hard_clip (s : Distortion) (input : ℝ) : ℝ :=
  let threshold := 0.5 + s.drive * 0.5
  if input > threshold then threshold
  else if input < -threshold then -threshold
  else input

/-- Distortion::bit_crush: sample-and-hold with a fractional counter, then
quantization of the held sample. Returns (output, updated state). -/
def bit_crush (s : Distortion) (input : ℝ) : ℝ × Distortion :=
  let counter0 := s.bit_crusher_counter + s.bit_crusher_rate
  let counter := if counter0 ≥ 1.0 then counter0 - 1.0 else counter0
  let last := if counter0 ≥ 1.0 then input else s.last_sample
  let levels := (2.0 : ℝ) ^ (s.bit_crusher_depth * 16.0)
  let quantized := fround (last * levels) / levels
  (quantized, { s with bit_crusher_counter := counter, last_sample := last })

/-- Distortion::wavefold: sin(input * fold_amount) / fold_amount. -/
def wavefold (s : Distortion) (input : ℝ) : ℝ :=
  let fold_amount := 0.5 + s.drive * 2.0
  Real.sin (input * fold_amount) / fold_amount

/-- Distortion::overdrive: asymmetric clipping beyond drive-dependent thresholds. -/
def overdrive (s : Distortion) (input : ℝ) : ℝ :=
  let positive_threshold := 0.3 + s.drive * 0.4
  let negative_threshold := 0.2 + s.drive * 0.3
  if input > positive_threshold then
    positive_threshold + (input - positive_threshold) * 0.3
  else if input < -negative_threshold then
    -negative_threshold + (input + negative_threshold) * 0.3
  else input

/-- Distortion::apply_distortion: dispatch on the selected algorithm.
Only bit_crush mutates state. -/
def apply_distortion (s : Distortion) (input : ℝ) : ℝ × Distortion :=
  match s.distortion_type with
  | .Soft => (s.soft_clip input, s)
  | .Hard => (s.hard_clip input, s)
  | .BitCrusher => s.bit_crush input
  | .Wavefolder => (s.wavefold input, s)
  | .Overdrive => (s.overdrive input, s)

/-- Distortion::apply_tone_filter: first-order filter with tone-dependent
cutoff, output blended between filtered and unfiltered signal. -/
def apply_tone_filter (s : Distortion) (input : ℝ) : ℝ × Distortion :=
  let cutoff := 100.0 + s.tone * 2000.0
  let rc := 1.0 / (2.0 * π * cutoff)
  let dt := 1.0 / s.sample_rate
  let alpha := rc / (rc + dt)
  let output := alpha * (s.tone_filter_0 + input - s.tone_filter_1)
  let filtered := output
  let unfiltered := input
  (filtered * s.tone + unfiltered * (1.0 - s.tone),
    { s with tone_filter_1 := s.tone_filter_0, tone_filter_0 := input })

/-- Distortion::apply_dc_blocker: one-pole DC blocking filter, alpha = 0.995. -/
def apply_dc_blocker (s : Distortion) (input : ℝ) : ℝ × Distortion :=
  let alpha := (0.995 : ℝ)
  let output := input - s.dc_blocker_0 + alpha * s.dc_blocker_1
  (output, { s with dc_blocker_0 := input, dc_blocker_1 := output })

/-- Distortion::tick: drive gain, waveshaping, tone filter, DC blocker, level,
applied to the left channel and then the right channel, threading state in
that order exactly as the Rust method body does. -/
def tick (s : Distortion) (input : ℝ × ℝ) : (ℝ × ℝ) × Distortion :=
  let drive_gain := s.calculate_drive_gain
  let left_driven := input.1 * drive_gain
  let right_driven := input.2 * drive_gain
  let pl := s.apply_distortion left_driven
  let pr := pl.2.apply_distortion right_driven
  let tl := pr.2.apply_tone_filter pl.1
  let tr := tl.2.apply_tone_filter pr.1
  let bl := tr.2.apply_dc_blocker tl.1
  let br := bl.2.apply_dc_blocker tr.1
  ((bl.1 * br.2.level, br.1 * br.2.level), br.2)

/-- Distortion::reset: zero the filter histories, the bit-crusher counter and
the held sample. -/
def reset (s : Distortion) : Distortion :=
  { s with dc_blocker_0 := 0.0
           dc_blocker_1 := 0.0
           tone_filter_0 := 0.0
           tone_filter_1 := 0.0
           bit_crusher_counter := 0.0
           last_sample := 0.0 }

/-- State transition of one bit_crush call (output discarded). -/
def bc_state_step (s : Distortion) (input : ℝ) : Distortion :=
  (s.bit_crush input).2

/-- Iterated bit_crush state under a constant input stream. -/
def bc_iter (s : Distortion) (input : ℝ) : ℕ → Distortion
  | 0 => s
  | n + 1 => (bc_iter s input n).bc_state_step input

/-- The next bit_crush call on this state will latch a new held sample. -/
def bc_will_latch (s : Distortion) : Prop :=
  s.bit_crusher_counter + s.bit_crusher_rate ≥ 1.0

end Distortion

/-- The quantization applied by bit_crush: round to the nearest of
2^(depth*16) levels. -/
def bc_quantize (depth x : ℝ) : ℝ :=
  fround (x * (2.0 : ℝ) ^ (depth * 16.0)) / (2.0 : ℝ) ^ (depth * 16.0)

/-- The reverb parameters held behind the Freeverb unit, an external
collaborator; its setters are modelled as recording the value passed. -/
structure ReverbParams where
  wet : ℝ
  dry : ℝ
  room_size : ℝ
  dampening : ℝ
  width : ℝ

/-- The shared state mutated by the console input thread of main.rs:
the reverb parameters, the distortion engine, the effect selection flag
(true = reverb active, false = distortion active) and the running flag. -/
structure AppState where
  reverb : ReverbParams
  distortion : Distortion
  effect_selection : Bool
  running : Bool

/-- A parsed console command, one constructor per arm of the match in
input_thread (main.rs). Numeric arguments carry the parsed f64 values. -/
inductive Cmd where
  | w (v : ℝ)
  | d (v : ℝ)
  | r (v : ℝ)
  | p (v : ℝ)
  | x (v : ℝ)
  | dr (v : ℝ)
  | l (v : ℝ)
  | t (v : ℝ)
  | bc (rate depth : ℝ)
  | soft
  | hard
  | bit
  | wave
  | over
  | dry
  | pass
  | q

/-- The command dispatch of input_thread (main.rs). One-float commands
clamp the parsed value to [0,1] before applying it, exactly as the Rust
code does; the bc command passes rate and depth through unclamped to
set_bit_crusher_params, which clamps them itself. -/
def process_command (st : AppState) : Cmd → AppState
  | .w v => { st with effect_selection := true,
                      reverb := { st.reverb with wet := fclamp v 0.0 1.0 } }
  | .d v => { st with effect_selection := true,
                      reverb := { st.reverb with dry := fclamp v 0.0 1.0 } }
  | .r v => { st with effect_selection := true,
                      reverb := { st.reverb with room_size := fclamp v 0.0 1.0 } }
  | .p v => { st with effect_selection := true,
                      reverb := { st.reverb with dampening := fclamp v 0.0 1.0 } }
  | .x v => { st with effect_selection := true,
                      reverb := { st.reverb with width := fclamp v 0.0 1.0 } }
  | .dr v => { st with effect_selection := false,
                       distortion := st.distortion.set_drive (fclamp v 0.0 1.0) }
  | .l v => { st with effect_selection := false,
                      distortion := st.distortion.set_level (fclamp v 0.0 1.0) }
  | .t v => { st with effect_selection := false,
                      distortion := st.distortion.set_tone (fclamp v 0.0 1.0) }
  | .bc rate depth =>
      { st with effect_selection := false,
                distortion := (st.distortion.set_distortion_type
                  .BitCrusher).set_bit_crusher_params rate depth }
  | .soft => { st with effect_selection := false,
                       distortion := st.distortion.set_distortion_type .Soft }
  | .hard => { st with effect_selection := false,
                       distortion := st.distortion.set_distortion_type .Hard }
  | .bit => { st with effect_selection := false,
                      distortion := st.distortion.set_distortion_type .BitCrusher }
  | .wave => { st with effect_selection := false,
                       distortion := st.distortion.set_distortion_type .Wavefolder }
  | .over => { st with effect_selection := false,
                       distortion := st.distortion.set_distortion_type .Overdrive }
  | .dry => { st with reverb := { st.reverb with wet := 0.0, dry := 1.0 },
                      distortion := st.distortion.set_level 0.0 }
  | .pass => { st with reverb := { wet := 0.0, dry := 1.0, room_size := 0.0,
                                   dampening := 0.0, width := 0.5 },
                       distortion := st.distortion.set_level 0.0 }
  | .q => { st with running := false }

/-- The render stage pop: consumer.pop().unwrap_or(0.0) in
build_output_stream (main.rs). An empty pop yields silence. -/
def render_pop_sample (popped : Option ℝ) : ℝ :=
  popped.getD 0.0

/-- One render-stage frame when the distortion effect is selected: the
popped (or substituted) mono sample is duplicated into both channels and
fed to tick. -/
def render_frame_distortion (popped : Option ℝ) (s : Distortion) :
    (ℝ × ℝ) × Distortion :=
  let input_sample := render_pop_sample popped
  s.tick (input_sample, input_sample)

end

/-! ## Helper lemmas -/

/-- For lo ≤ hi, the Rust clamp agrees with max lo (min x hi). -/
theorem fclamp_eq_max_min (x lo hi : ℝ) (h : lo ≤ hi) :
    fclamp x lo hi = max lo (min x hi) := by
  unfold fclamp
  split_ifs with h1 h2
  · rw [min_eq_left (by linarith), max_eq_left (by linarith)]
  · rw [min_eq_right (by linarith), max_eq_right h]
  · rw [min_eq_left (by linarith), max_eq_right (by linarith)]

/-! ## C6: reset zeroes the filter state, independently of the algorithm -/

/-- C6: reset() sets the tone-filter history, the DC-blocker history, the
bit-crusher fractional counter and the held sample to zero, and it commutes
with set_distortion_type, so its effect does not depend on which algorithm
is currently selected. -/
theorem C6_reset_zeroes_state (s : Distortion) (t : DistortionType) :
    s.reset.dc_blocker_0 = 0.0 ∧ s.reset.dc_blocker_1 = 0.0 ∧
    s.reset.tone_filter_0 = 0.0 ∧ s.reset.tone_filter_1 = 0.0 ∧
    s.reset.bit_crusher_counter = 0.0 ∧ s.reset.last_sample = 0.0 ∧
    (s.set_distortion_type t).reset = s.reset.set_distortion_type t := by
  refine ⟨rfl, rfl, rfl, rfl, rfl, rfl, rfl⟩

/-! ## C7: set_distortion_type changes only the selected algorithm -/

/-- C7: set_distortion_type stores the new algorithm and leaves every other
field of the engine unchanged: filter histories, bit-crusher state and all
parameters survive the switch. -/
theorem C7_set_type_frame (s : Distortion) (t : DistortionType) :
    (s.set_distortion_type t).distortion_type = t ∧
    (s.set_distortion_type t).drive = s.drive ∧
    (s.set_distortion_type t).level = s.level ∧
    (s.set_distortion_type t).tone = s.tone ∧
    (s.set_distortion_type t).sample_rate = s.sample_rate ∧
    (s.set_distortion_type t).dc_blocker_0 = s.dc_blocker_0 ∧
    (s.set_distortion_type t).dc_blocker_1 = s.dc_blocker_1 ∧
    (s.set_distortion_type t).tone_filter_0 = s.tone_filter_0 ∧
    (s.set_distortion_type t).tone_filter_1 = s.tone_filter_1 ∧
    (s.set_distortion_type t).bit_crusher_counter = s.bit_crusher_counter ∧
    (s.set_distortion_type t).bit_crusher_rate = s.bit_crusher_rate ∧
    (s.set_distortion_type t).bit_crusher_depth = s.bit_crusher_depth ∧
    (s.set_distortion_type t).last_sample = s.last_sample := by
  refine ⟨rfl, rfl, rfl, rfl, rfl, rfl, rfl, rfl, rfl, rfl, rfl, rfl, rfl⟩

/-! ## C10: reset leaves the parameter fields unchanged -/

/-- C10: reset() does not touch the selected algorithm, drive, level, tone,
sample rate, bit-crusher rate or bit-crusher depth; only the four
filter/history state items are modified. -/
theorem C10_reset_frame (s : Distortion) :
    s.reset.distortion_type = s.distortion_type ∧
    s.reset.drive = s.drive ∧
    s.reset.level = s.level ∧
    s.reset.tone = s.tone ∧
    s.reset.sample_rate = s.sample_rate ∧
    s.reset.bit_crusher_rate = s.bit_crusher_rate ∧
    s.reset.bit_crusher_depth = s.bit_crusher_depth := by
  refine ⟨rfl, rfl, rfl, rfl, rfl, rfl, rfl⟩

/-! ## C8: render stage substitutes silence on an empty pop -/

/-- C8: when the bounded channel pop returns nothing, the render stage
substitutes the sample 0.0, and the selected effect is invoked on silence
duplicated into both channels; a present sample is passed through. -/
theorem C8_underflow_silence (s : Distortion) (v : ℝ) :
    render_pop_sample none = 0.0 ∧
    render_pop_sample (some v) = v ∧
    render_frame_distortion none s = s.tick (0.0, 0.0) := by
  refine ⟨rfl, rfl, rfl⟩

/-! ## C5: all setters clamp, out-of-range input is never rejected -/

/-- C5: set_drive, set_level and set_tone store their argument clamped to
the interval 0 to 1 (in-range values are stored unchanged, set_drive(-1)
stores 0 and set_drive(2) stores 1), and set_bit_crusher_params stores the
rate clamped to 0.01..1 and the depth clamped to 0.1..1; every setter is
total, so no input is rejected. -/
theorem C5_setters_clamp (s : Distortion) (v rate depth : ℝ) :
    (s.set_drive v).drive = max 0 (min v 1) ∧
    (s.set_level v).level = max 0 (min v 1) ∧
    (s.set_tone v).tone = max 0 (min v 1) ∧
    (0 ≤ v → v ≤ 1 →
      (s.set_drive v).drive = v ∧ (s.set_level v).level = v ∧
      (s.set_tone v).tone = v) ∧
    (s.set_drive (-1)).drive = 0 ∧
    (s.set_drive 2).drive = 1 ∧
    (s.set_bit_crusher_params rate depth).bit_crusher_rate
      = max 0.01 (min rate 1) ∧
    (s.set_bit_crusher_params rate depth).bit_crusher_depth
      = max 0.1 (min depth 1) := by
  have h01 : (0.0 : ℝ) ≤ 1.0 := by norm_num
  refine ⟨?_, ?_, ?_, ?_, ?_, ?_, ?_, ?_⟩
  · show fclamp v 0.0 1.0 = max 0 (min v 1)
    rw [fclamp_eq_max_min v 0.0 1.0 h01]; norm_num
  · show fclamp v 0.0 1.0 = max 0 (min v 1)
    rw [fclamp_eq_max_min v 0.0 1.0 h01]; norm_num
  · show fclamp v 0.0 1.0 = max 0 (min v 1)
    rw [fclamp_eq_max_min v 0.0 1.0 h01]; norm_num
  · intro hv0 hv1
    have he : fclamp v 0.0 1.0 = v := by
      rw [fclamp_eq_max_min v 0.0 1.0 h01]
      norm_num
      rw [min_eq_left hv1, max_eq_right hv0]
    exact ⟨he, he, he⟩
  · show fclamp (-1) 0.0 1.0 = 0
    unfold fclamp; norm_num
  · show fclamp 2 0.0 1.0 = 1
    unfold fclamp; norm_num
  · show fclamp rate 0.01 1.0 = max 0.01 (min rate 1)
    rw [fclamp_eq_max_min rate 0.01 1.0 (by norm_num)]; norm_num
  · show fclamp depth 0.1 1.0 = max 0.1 (min depth 1)
    rw [fclamp_eq_max_min depth 0.1 1.0 (by norm_num)]; norm_num

/-- C5 witness: the clamping facts instantiated at concrete inputs, with the
in-range hypotheses discharged at v = 1/2. -/
theorem C5_setters_clamp_witness :
    ((Distortion.new 44100).set_drive (1/2)).drive = max 0 (min (1/2) 1) ∧
    ((Distortion.new 44100).set_level (1/2)).level = max 0 (min (1/2) 1) ∧
    ((Distortion.new 44100).set_tone (1/2)).tone = max 0 (min (1/2) 1) ∧
    ((0:ℝ) ≤ 1/2 → (1:ℝ)/2 ≤ 1 →
      ((Distortion.new 44100).set_drive (1/2)).drive = 1/2 ∧
      ((Distortion.new 44100).set_level (1/2)).level = 1/2 ∧
      ((Distortion.new 44100).set_tone (1/2)).tone = 1/2) ∧
    ((Distortion.new 44100).set_drive (-1)).drive = 0 ∧
    ((Distortion.new 44100).set_drive 2).drive = 1 ∧
    ((Distortion.new 44100).set_bit_crusher_params (1/2) (1/2)).bit_crusher_rate
      = max 0.01 (min (1/2) 1) ∧
    ((Distortion.new 44100).set_bit_crusher_params (1/2) (1/2)).bit_crusher_depth
      = max 0.1 (min (1/2) 1) :=
  C5_setters_clamp (Distortion.new 44100) (1/2) (1/2) (1/2)

/-! ## C9: console commands select the effect they parameterize -/

/-- C9: processing the console line bc 0.3 0.4 sets the algorithm to
BitCrusher, the rate to 0.3, the depth to 0.4 and the effect selector to
distortion (false), whatever the previous state was; more generally every
distortion parameter or algorithm command stores selector false and every
reverb parameter command stores selector true. -/
theorem C9_console_selects_effect (st : AppState) (v rate depth : ℝ) :
    (process_command st (.bc 0.3 0.4)).distortion.distortion_type
      = .BitCrusher ∧
    (process_command st (.bc 0.3 0.4)).distortion.bit_crusher_rate = 0.3 ∧
    (process_command st (.bc 0.3 0.4)).distortion.bit_crusher_depth = 0.4 ∧
    (process_command st (.bc 0.3 0.4)).effect_selection = false ∧
    (process_command st (.dr v)).effect_selection = false ∧
    (process_command st (.l v)).effect_selection = false ∧
    (process_command st (.t v)).effect_selection = false ∧
    (process_command st (.bc rate depth)).effect_selection = false ∧
    (process_command st .soft).effect_selection = false ∧
    (process_command st .hard).effect_selection = false ∧
    (process_command st .bit).effect_selection = false ∧
    (process_command st .wave).effect_selection = false ∧
    (process_command st .over).effect_selection = false ∧
    (process_command st (.w v)).effect_selection = true ∧
    (process_command st (.d v)).effect_selection = true ∧
    (process_command st (.r v)).effect_selection = true ∧
    (process_command st (.p v)).effect_selection = true ∧
    (process_command st (.x v)).effect_selection = true := by
  refine ⟨rfl, ?_, ?_, rfl, rfl, rfl, rfl, rfl, rfl, rfl, rfl, rfl, rfl,
    rfl, rfl, rfl, rfl, rfl⟩
  · show fclamp 0.3 0.01 1.0 = 0.3
    unfold fclamp; norm_num
  · show fclamp 0.4 0.1 1.0 = 0.4
    unfold fclamp; norm_num

/-! ## C1: boundedness of the Soft algorithm -/

/-- The hyperbolic tangent has magnitude strictly below one. -/
theorem abs_tanh_lt_one (x : ℝ) : |Real.tanh x| < 1 := by
  have hc := Real.cosh_pos x
  have h1 := Real.sinh_lt_cosh x
  have h2 : -Real.cosh x < Real.sinh x := by
    have ha := Real.cosh_add_sinh x
    have hb := Real.exp_pos x
    linarith
  rw [Real.tanh_eq_sinh_div_cosh, abs_div, abs_of_pos hc, div_lt_one hc,
    abs_lt]
  exact ⟨h2, h1⟩

/-- A state built only through the public API: fresh engine at 44100 Hz,
tone 0, level 1, Overdrive selected, then one tick on a large input, which
loads a large value into the DC-blocker history. -/
noncomputable def c1_pumped_state : Distortion :=
  (((((Distortion.new 44100).set_tone 0.0).set_level
      1.0).set_distortion_type .Overdrive).tick (1000000.0, 1000000.0)).2

/-- The counterexample state: the pumped engine switched to Soft. -/
noncomputable def c1_cex_state : Distortion :=
  c1_pumped_state.set_distortion_type .Soft

/-- C1 counterexample: with the Soft algorithm selected and drive 0.5 in
[0,1], there is a reachable engine state (built above purely through the
public API) and an input (silence) on which tick produces an output of
magnitude far above 1.0: the DC-blocker history feeds 0.995 times its
stored value back into the output, which the level stage only scales. So
tick output with Soft is not bounded by 1.0 over all engine states. -/
theorem C1_counterexample :
    0 ≤ c1_cex_state.drive ∧ c1_cex_state.drive ≤ 1 ∧
    c1_cex_state.distortion_type = .Soft ∧
    1 < |((c1_cex_state.tick (0.0, 0.0)).1).1| := by
  refine ⟨?_, ?_, ?_, ?_⟩ <;>
    norm_num [c1_cex_state, c1_pumped_state, Distortion.new,
      Distortion.set_tone, Distortion.set_level,
      Distortion.set_distortion_type, fclamp, Distortion.tick,
      Distortion.apply_distortion, Distortion.overdrive,
      Distortion.soft_clip, Distortion.apply_tone_filter,
      Distortion.apply_dc_blocker, Distortion.calculate_drive_gain,
      Real.tanh_zero, lt_abs]

/-- C1 amended: for every drive in [0,1], every engine state and every
input, the Soft waveshaping stage inside tick (tanh) produces a value of
magnitude strictly below 1.0 on each channel and leaves the state
unchanged; the bound does not extend to the full tick output, whose tone
and DC-blocker stages can amplify past 1.0. -/
theorem C1_amended (s : Distortion) (input : ℝ)
    (h : s.distortion_type = .Soft) :
    |(s.apply_distortion input).1| < 1 ∧ (s.apply_distortion input).2 = s := by
  unfold Distortion.apply_distortion
  rw [h]
  exact ⟨abs_tanh_lt_one input, rfl⟩

/-- C1 witness: the amended bound evaluated on a fresh engine (whose
algorithm defaults to Soft) at input 5. -/
theorem C1_amended_witness :
    (Distortion.new 44100).distortion_type = .Soft ∧
    |((Distortion.new 44100).apply_distortion 5).1| < 1 ∧
    ((Distortion.new 44100).apply_distortion 5).2 = Distortion.new 44100 :=
  ⟨rfl, C1_amended (Distortion.new 44100) 5 rfl⟩

/-! ## C2: exactness of the Hard algorithm at the threshold -/

/-- The end-to-end Hard scenario state: a fresh engine with Hard selected,
drive 1 and tone 0 (tone 0 makes the tone filter a pass-through, isolating
the clipping result from the irrational filter coefficient). -/
def c2_cex_state : Distortion :=
  { Distortion.new 44100 with
      distortion_type := .Hard
      drive := 1.0
      tone := 0.0 }

/-- C2 counterexample: with drive 1 in [0,1] and input 2.0, the driven
sample 40.0 exceeds the threshold 1.0, yet the tick output is 0.7 (the
clipped value scaled by the default level), not the threshold: tick output
is not exactly the threshold, because the tone, DC-blocker and level stages
run after the clipper. -/
theorem C2_counterexample :
    0 ≤ c2_cex_state.drive ∧ c2_cex_state.drive ≤ 1 ∧
    c2_cex_state.distortion_type = .Hard ∧
    0.5 + c2_cex_state.drive * 0.5
      < 2.0 * c2_cex_state.calculate_drive_gain ∧
    ((c2_cex_state.tick (2.0, 2.0)).1).1 ≠ 0.5 + c2_cex_state.drive * 0.5 ∧
    ((c2_cex_state.tick (2.0, 2.0)).1).1
      ≠ -(0.5 + c2_cex_state.drive * 0.5) := by
  refine ⟨by norm_num [c2_cex_state, Distortion.new],
    by norm_num [c2_cex_state, Distortion.new], rfl,
    by norm_num [c2_cex_state, Distortion.new,
      Distortion.calculate_drive_gain], ?_, ?_⟩ <;>
  · norm_num [c2_cex_state, Distortion.new, Distortion.tick,
      Distortion.apply_distortion, Distortion.hard_clip,
      Distortion.apply_tone_filter, Distortion.apply_dc_blocker,
      Distortion.calculate_drive_gain]

/-- C2 amended: for every drive in [0,1], the Hard waveshaping stage inside
tick maps any driven sample strictly above the threshold 0.5 + drive*0.5
to exactly the threshold and any driven sample strictly below its negation
to exactly the negated threshold; the final tick output differs because the
tone, DC-blocker and level stages run afterwards. -/
theorem C2_amended (s : Distortion) (input : ℝ) (h0 : 0 ≤ s.drive)
    (h1 : s.drive ≤ 1) :
    (0.5 + s.drive * 0.5 < input →
      s.hard_clip input = 0.5 + s.drive * 0.5) ∧
    (input < -(0.5 + s.drive * 0.5) →
      s.hard_clip input = -(0.5 + s.drive * 0.5)) ∧
    (s.distortion_type = .Hard →
      (s.apply_distortion input).1 = s.hard_clip input) := by
  refine ⟨?_, ?_, ?_⟩
  · intro h
    simp only [Distortion.hard_clip]
    rw [if_pos h]
  · intro h
    simp only [Distortion.hard_clip]
    rw [if_neg (by intro hcon; linarith), if_pos h]
  · intro ht
    unfold Distortion.apply_distortion
    rw [ht]

/-- C2 witness: the amended statement on a fresh engine (drive 0.5,
threshold 0.75) at input 2, with the drive-range hypotheses discharged. -/
theorem C2_amended_witness :
    0 ≤ (Distortion.new 44100).drive ∧ (Distortion.new 44100).drive ≤ 1 ∧
    ((0.5 + (Distortion.new 44100).drive * 0.5 < 2 →
      (Distortion.new 44100).hard_clip 2
        = 0.5 + (Distortion.new 44100).drive * 0.5) ∧
     ((2:ℝ) < -(0.5 + (Distortion.new 44100).drive * 0.5) →
      (Distortion.new 44100).hard_clip 2
        = -(0.5 + (Distortion.new 44100).drive * 0.5)) ∧
     ((Distortion.new 44100).distortion_type = .Hard →
      ((Distortion.new 44100).apply_distortion 2).1
        = (Distortion.new 44100).hard_clip 2)) :=
  ⟨by norm_num [Distortion.new], by norm_num [Distortion.new],
    C2_amended (Distortion.new 44100) 2 (by norm_num [Distortion.new])
      (by norm_num [Distortion.new])⟩

/-! ## C3: bit-crusher sample-and-hold timing -/

/-- A bit-crusher state as produced by the console command bc 0.4 x:
rate 0.4, counter 0. -/
def c3_cex_state : Distortion :=
  { Distortion.new 44100 with
      distortion_type := .BitCrusher
      bit_crusher_rate := 0.4 }

/-- C3 counterexample: with rate 0.4 (inside the legal range) and a
constant input stream, ceil(1/rate) = 3 but the held sample latches at
call 3 and again at call 5, only two calls later: the fractional counter
carries its remainder across latches, so latch events are not spaced
every ceil(1/rate) calls. -/
theorem C3_counterexample :
    c3_cex_state.bit_crusher_rate = 0.4 ∧
    c3_cex_state.bit_crusher_counter = 0.0 ∧
    ⌈1.0 / c3_cex_state.bit_crusher_rate⌉ = 3 ∧
    ¬ (c3_cex_state.bc_iter 0.5 0).bc_will_latch ∧
    ¬ (c3_cex_state.bc_iter 0.5 1).bc_will_latch ∧
    (c3_cex_state.bc_iter 0.5 2).bc_will_latch ∧
    ¬ (c3_cex_state.bc_iter 0.5 3).bc_will_latch ∧
    (c3_cex_state.bc_iter 0.5 4).bc_will_latch := by
  refine ⟨rfl, rfl, ?_, ?_, ?_, ?_, ?_, ?_⟩
  · have h52 : (1.0 : ℝ) / c3_cex_state.bit_crusher_rate = 5/2 := by
      norm_num [c3_cex_state, Distortion.new]
    rw [h52, Int.ceil_eq_iff]
    norm_num
  all_goals
    norm_num [c3_cex_state, Distortion.new, Distortion.bc_iter,
      Distortion.bc_state_step, Distortion.bit_crush,
      Distortion.bc_will_latch]

/-- Characterization of the iterated bit-crusher state: starting from
counter 0, after n calls the counter is the fractional part of n*rate,
the held sample is the constant input from the first latch on, and the
rate and depth fields are untouched. -/
theorem bc_iter_spec (s : Distortion) (c : ℝ)
    (h0 : 0 < s.bit_crusher_rate) (h1 : s.bit_crusher_rate ≤ 1)
    (hc : s.bit_crusher_counter = 0) (n : ℕ) :
    (s.bc_iter c n).bit_crusher_counter
      = Int.fract ((n : ℝ) * s.bit_crusher_rate) ∧
    (s.bc_iter c n).last_sample
      = (if 1 ≤ (n : ℝ) * s.bit_crusher_rate then c else s.last_sample) ∧
    (s.bc_iter c n).bit_crusher_rate = s.bit_crusher_rate ∧
    (s.bc_iter c n).bit_crusher_depth = s.bit_crusher_depth := by
  induction n with
  | zero =>
      refine ⟨?_, ?_, rfl, rfl⟩
      · show s.bit_crusher_counter = Int.fract (((0:ℕ) : ℝ) * s.bit_crusher_rate)
        rw [hc]
        norm_num
      · show s.last_sample
          = if 1 ≤ ((0:ℕ) : ℝ) * s.bit_crusher_rate then c else s.last_sample
        norm_num
  | succ n ih =>
      obtain ⟨ihc, ihl, ihr, ihd⟩ := ih
      have hnr0 : (0:ℝ) ≤ (n : ℝ) * s.bit_crusher_rate :=
        mul_nonneg (Nat.cast_nonneg n) h0.le
      have hF0 : (0:ℝ) ≤ Int.fract ((n : ℝ) * s.bit_crusher_rate) :=
        Int.fract_nonneg _
      have hF1 : Int.fract ((n : ℝ) * s.bit_crusher_rate) < 1 :=
        Int.fract_lt_one _
      have hfl : (⌊(n : ℝ) * s.bit_crusher_rate⌋ : ℝ)
            + Int.fract ((n : ℝ) * s.bit_crusher_rate)
          = (n : ℝ) * s.bit_crusher_rate := Int.floor_add_fract _
      have hfl0 : (0:ℝ) ≤ (⌊(n : ℝ) * s.bit_crusher_rate⌋ : ℝ) := by
        exact_mod_cast Int.floor_nonneg.mpr hnr0
      have hcnt1 : (s.bc_iter c (n+1)).bit_crusher_counter
          = if (s.bc_iter c n).bit_crusher_counter
                + (s.bc_iter c n).bit_crusher_rate ≥ 1.0
            then (s.bc_iter c n).bit_crusher_counter
                + (s.bc_iter c n).bit_crusher_rate - 1.0
            else (s.bc_iter c n).bit_crusher_counter
                + (s.bc_iter c n).bit_crusher_rate := rfl
      have hlast1 : (s.bc_iter c (n+1)).last_sample
          = if (s.bc_iter c n).bit_crusher_counter
                + (s.bc_iter c n).bit_crusher_rate ≥ 1.0
            then c else (s.bc_iter c n).last_sample := rfl
      have hexp1 : ((n : ℝ) + 1) * s.bit_crusher_rate
          = (n : ℝ) * s.bit_crusher_rate + s.bit_crusher_rate := by ring
      have hsplitter : ((n : ℝ) + 1) * s.bit_crusher_rate
          = (⌊(n : ℝ) * s.bit_crusher_rate⌋ : ℝ)
            + (Int.fract ((n : ℝ) * s.bit_crusher_rate)
                + s.bit_crusher_rate) := by
        linear_combination -hfl
      have hfr : Int.fract (((n : ℝ) + 1) * s.bit_crusher_rate)
          = Int.fract (Int.fract ((n : ℝ) * s.bit_crusher_rate)
              + s.bit_crusher_rate) := by
        rw [hsplitter, Int.fract_int_add]
      refine ⟨?_, ?_, ihr ▸ rfl, ihd ▸ rfl⟩
      · rw [hcnt1, ihc, ihr]
        push_cast
        rw [hfr]
        split_ifs with hlat
        · have e1 : Int.fract (Int.fract ((n : ℝ) * s.bit_crusher_rate)
                + s.bit_crusher_rate - 1)
              = Int.fract (Int.fract ((n : ℝ) * s.bit_crusher_rate)
                + s.bit_crusher_rate) := by
            have h := Int.fract_sub_int
              (Int.fract ((n : ℝ) * s.bit_crusher_rate)
                + s.bit_crusher_rate) 1
            push_cast at h
            exact h
          have hlat1 : (1:ℝ) ≤ Int.fract ((n : ℝ) * s.bit_crusher_rate)
              + s.bit_crusher_rate := by linarith [hlat]
          have e2 : Int.fract (Int.fract ((n : ℝ) * s.bit_crusher_rate)
                + s.bit_crusher_rate - 1)
              = Int.fract ((n : ℝ) * s.bit_crusher_rate)
                + s.bit_crusher_rate - 1 :=
            Int.fract_eq_self.mpr ⟨by linarith, by linarith⟩
          rw [← e1, e2]
          norm_num
        · have hlat1 : Int.fract ((n : ℝ) * s.bit_crusher_rate)
              + s.bit_crusher_rate < 1 := by
            by_contra hcon
            exact hlat (by linarith [not_lt.mp hcon])
          rw [Int.fract_eq_self.mpr ⟨by linarith, hlat1⟩]
      · rw [hlast1, ihc, ihr, ihl]
        push_cast
        by_cases hA : Int.fract ((n : ℝ) * s.bit_crusher_rate)
            + s.bit_crusher_rate ≥ 1.0
        · rw [if_pos hA]
          have hB : (1:ℝ) ≤ ((n : ℝ) + 1) * s.bit_crusher_rate := by
            linarith [hA, hfl, hfl0, hexp1]
          rw [if_pos hB]
        · rw [if_neg hA]
          have hA1 : Int.fract ((n : ℝ) * s.bit_crusher_rate)
              + s.bit_crusher_rate < 1 := by
            have h := not_le.mp hA
            linarith [h]
          by_cases hC : (1:ℝ) ≤ (n : ℝ) * s.bit_crusher_rate
          · rw [if_pos hC]
            have hD : (1:ℝ) ≤ ((n : ℝ) + 1) * s.bit_crusher_rate := by
              linarith [hexp1]
            rw [if_pos hD]
          · rw [if_neg hC]
            have hnr1 : (n : ℝ) * s.bit_crusher_rate < 1 := not_le.mp hC
            have hFeq : Int.fract ((n : ℝ) * s.bit_crusher_rate)
                = (n : ℝ) * s.bit_crusher_rate :=
              Int.fract_eq_self.mpr ⟨hnr0, hnr1⟩
            have hD : ¬ (1:ℝ) ≤ ((n : ℝ) + 1) * s.bit_crusher_rate := by
              intro hcon
              exact absurd (by linarith [hexp1, hFeq, hcon] :
                Int.fract ((n : ℝ) * s.bit_crusher_rate)
                  + s.bit_crusher_rate ≥ 1.0) hA
            rw [if_neg hD]

/-- C3 amended: each bit_crush call adds the rate to the fractional
counter, latches the input and subtracts 1 when the counter reaches 1, and
emits the held sample quantized to 2^(depth*16) levels. For a constant
input stream from counter 0: after n calls the counter is the fractional
part of n*rate and the held sample is the input once any latch has
occurred; the emitted value is the quantized held sample, hence constant
between (and here across) latches; and a latch occurs at call n+1 exactly
when floor((n+1)*rate) exceeds floor(n*rate) - which is every 1/rate calls
when 1/rate is an integer, but gaps may be shorter than ceil(1/rate)
otherwise. -/
theorem C3_amended (s : Distortion) (c : ℝ) (n : ℕ)
    (h0 : 0 < s.bit_crusher_rate) (h1 : s.bit_crusher_rate ≤ 1)
    (hc : s.bit_crusher_counter = 0) :
    (s.bc_iter c n).bit_crusher_counter
      = Int.fract ((n : ℝ) * s.bit_crusher_rate) ∧
    (s.bc_iter c n).last_sample
      = (if 1 ≤ (n : ℝ) * s.bit_crusher_rate then c else s.last_sample) ∧
    ((s.bc_iter c n).bit_crush c).1
      = bc_quantize s.bit_crusher_depth
          (if 1 ≤ ((n : ℝ) + 1) * s.bit_crusher_rate then c
           else s.last_sample) ∧
    ((s.bc_iter c n).bc_will_latch ↔
      ⌊((n : ℝ) + 1) * s.bit_crusher_rate⌋
        = ⌊(n : ℝ) * s.bit_crusher_rate⌋ + 1) := by
  obtain ⟨hcnt, hlast, hrate, hdepth⟩ := bc_iter_spec s c h0 h1 hc n
  obtain ⟨_, hlastS, _, _⟩ := bc_iter_spec s c h0 h1 hc (n+1)
  have hnr0 : (0:ℝ) ≤ (n : ℝ) * s.bit_crusher_rate :=
    mul_nonneg (Nat.cast_nonneg n) h0.le
  have hF0 : (0:ℝ) ≤ Int.fract ((n : ℝ) * s.bit_crusher_rate) :=
    Int.fract_nonneg _
  have hfl : (⌊(n : ℝ) * s.bit_crusher_rate⌋ : ℝ)
        + Int.fract ((n : ℝ) * s.bit_crusher_rate)
      = (n : ℝ) * s.bit_crusher_rate := Int.floor_add_fract _
  refine ⟨hcnt, hlast, ?_, ?_⟩
  · have hq : ((s.bc_iter c n).bit_crush c).1
        = bc_quantize ((s.bc_iter c n).bit_crusher_depth)
            (((s.bc_iter c n).bit_crush c).2.last_sample) := rfl
    have hstep : ((s.bc_iter c n).bit_crush c).2 = s.bc_iter c (n+1) := rfl
    rw [hq, hdepth, hstep, hlastS]
    push_cast
    rfl
  · show (s.bc_iter c n).bit_crusher_counter
        + (s.bc_iter c n).bit_crusher_rate ≥ 1.0 ↔ _
    rw [hcnt, hrate]
    have hexp1 : ((n : ℝ) + 1) * s.bit_crusher_rate
        = (n : ℝ) * s.bit_crusher_rate + s.bit_crusher_rate := by ring
    constructor
    · intro hlatch
      have hlatch1 : (1:ℝ) ≤ Int.fract ((n : ℝ) * s.bit_crusher_rate)
          + s.bit_crusher_rate := by linarith [hlatch]
      have hub : (n : ℝ) * s.bit_crusher_rate
          < (⌊(n : ℝ) * s.bit_crusher_rate⌋ : ℝ) + 1 :=
        Int.lt_floor_add_one _
      have hge : ⌊(n : ℝ) * s.bit_crusher_rate⌋ + 1
          ≤ ⌊((n : ℝ) + 1) * s.bit_crusher_rate⌋ := by
        apply Int.le_floor.mpr
        push_cast
        linarith [hfl, hexp1, hlatch1]
      have hlt : ⌊((n : ℝ) + 1) * s.bit_crusher_rate⌋
          < ⌊(n : ℝ) * s.bit_crusher_rate⌋ + 2 := by
        apply Int.floor_lt.mpr
        push_cast
        linarith [hub, h1, hexp1]
      omega
    · intro hfloor
      have hle : ((⌊(n : ℝ) * s.bit_crusher_rate⌋ : ℝ) + 1)
          ≤ ((n : ℝ) + 1) * s.bit_crusher_rate := by
        have h := Int.floor_le (((n : ℝ) + 1) * s.bit_crusher_rate)
        rw [hfloor] at h
        push_cast at h
        linarith
      have hres : (1:ℝ) ≤ Int.fract ((n : ℝ) * s.bit_crusher_rate)
          + s.bit_crusher_rate := by
        linarith [hfl, hexp1, hle]
      linarith [hres]

/-- C3 witness: the amended characterization instantiated on a fresh engine
(rate 0.1, counter 0) with constant input 1 after 2 calls, all hypotheses
discharged. -/
theorem C3_amended_witness :
    0 < (Distortion.new 44100).bit_crusher_rate ∧
    (Distortion.new 44100).bit_crusher_rate ≤ 1 ∧
    (Distortion.new 44100).bit_crusher_counter = 0 ∧
    (((Distortion.new 44100).bc_iter 1 2).bit_crusher_counter
       = Int.fract (((2:ℕ) : ℝ) * (Distortion.new 44100).bit_crusher_rate) ∧
     ((Distortion.new 44100).bc_iter 1 2).last_sample
       = (if 1 ≤ ((2:ℕ) : ℝ) * (Distortion.new 44100).bit_crusher_rate
          then (1:ℝ) else (Distortion.new 44100).last_sample) ∧
     (((Distortion.new 44100).bc_iter 1 2).bit_crush 1).1
       = bc_quantize (Distortion.new 44100).bit_crusher_depth
           (if 1 ≤ (((2:ℕ) : ℝ) + 1)
                  * (Distortion.new 44100).bit_crusher_rate
            then (1:ℝ) else (Distortion.new 44100).last_sample) ∧
     (((Distortion.new 44100).bc_iter 1 2).bc_will_latch ↔
       ⌊(((2:ℕ) : ℝ) + 1) * (Distortion.new 44100).bit_crusher_rate⌋
         = ⌊((2:ℕ) : ℝ) * (Distortion.new 44100).bit_crusher_rate⌋ + 1)) :=
  ⟨by norm_num [Distortion.new], by norm_num [Distortion.new],
   by norm_num [Distortion.new],
   C3_amended (Distortion.new 44100) 1 2 (by norm_num [Distortion.new])
     (by norm_num [Distortion.new]) (by norm_num [Distortion.new])⟩

/-! ## C4: end-to-end Hard scenario at 44100 Hz -/

/-- The scenario state: fresh engine at 44100 Hz, then
set_distortion_type(Hard) and set_drive(1.0). -/
noncomputable def c4_state : Distortion :=
  ((Distortion.new 44100).set_distortion_type .Hard).set_drive 1.0

/-- The tone-filter coefficient of the scenario (tone 0.5, 44100 Hz),
rewritten without nested fractions. -/
noncomputable def c4_alpha : ℝ := 44100 / (44100 + 2200 * π)

/-- Closed-form value of the first tick of the C4 scenario: the clipper
emits 1.0 on both channels, and the tone and DC-blocker stages (whose
histories are shared sequentially between the channels) yield these two
different outputs. -/
theorem c4_tick_eval :
    (c4_state.tick (2.0, 2.0)).1
      = (0.35 * (c4_alpha + 1), 0.7 * (0.9975 * c4_alpha + 0.4975)) := by
  have hπ : 0 < π := Real.pi_pos
  refine Prod.ext_iff.mpr ⟨?_, ?_⟩ <;>
  · norm_num [c4_state, Distortion.new, Distortion.set_drive,
      Distortion.set_distortion_type, fclamp, Distortion.tick,
      Distortion.apply_distortion, Distortion.hard_clip,
      Distortion.apply_tone_filter, Distortion.apply_dc_blocker,
      Distortion.calculate_drive_gain, c4_alpha]
    field_simp
    ring

/-- C4 counterexample: in the scenario (fresh engine at 44100 Hz, Hard,
drive 1.0), the first call tick((2.0, 2.0)) produces a right channel
strictly above 0.7 (about 0.95): because the tone filter and DC blocker
process the left channel first and share history, the right channel is
not bounded by the level value 0.7, contradicting the claim that both
components have magnitude at most 0.7. -/
theorem C4_counterexample :
    0.7 < ((c4_state.tick (2.0, 2.0)).1).2 := by
  have h : ((c4_state.tick (2.0, 2.0)).1).2
      = 0.7 * (0.9975 * c4_alpha + 0.4975) := by rw [c4_tick_eval]
  rw [h]
  have hb : (0.8:ℝ) < c4_alpha := by
    unfold c4_alpha
    rw [lt_div_iff₀ (by positivity)]
    nlinarith [Real.pi_lt_four]
  nlinarith [hb]

/-- C4 amended: for the fresh engine at 44100 Hz after
set_distortion_type(Hard) and set_drive(1.0), the first call
tick((2.0, 2.0)) returns a pair whose components both have magnitude at
most 1.0; the left component has magnitude strictly below 0.7, while the
right component exceeds 0.7 because the tone and DC-blocker histories are
threaded through the left channel first. -/
theorem C4_amended :
    |((c4_state.tick (2.0, 2.0)).1).1| < 0.7 ∧
    |((c4_state.tick (2.0, 2.0)).1).2| < 1 := by
  have h1 : ((c4_state.tick (2.0, 2.0)).1).1 = 0.35 * (c4_alpha + 1) := by
    rw [c4_tick_eval]
  have h2 : ((c4_state.tick (2.0, 2.0)).1).2
      = 0.7 * (0.9975 * c4_alpha + 0.4975) := by rw [c4_tick_eval]
  have hπ : 0 < π := Real.pi_pos
  have ha0 : (0:ℝ) < c4_alpha := by unfold c4_alpha; positivity
  have ha1 : c4_alpha < 1 := by
    unfold c4_alpha
    rw [div_lt_one (by positivity)]
    nlinarith
  have ha2 : c4_alpha < 0.87 := by
    unfold c4_alpha
    rw [div_lt_iff₀ (by positivity)]
    nlinarith [Real.pi_gt_three]
  constructor
  · rw [h1, abs_of_pos (by nlinarith)]
    nlinarith
  · rw [h2, abs_of_pos (by nlinarith)]
    nlinarith

end MacPedals
